import Mathlib

/-!
# Verification of create-lithia-app (src/cli/index.ts)

The CLI is a single linear orchestration: probe for external tools, collect
answers interactively, prepare the workspace directory, clone the chosen
template, patch `package.json`, optionally run `git init` and a
package-manager install, then report the next steps.

We embed one execution shallowly: an `Env` records everything the outside
world contributes (host tool availability, the answers the user would give,
what the filesystem and the spawned processes do), and `run` computes the
ordered trace of observable events a run with that environment produces,
together with its final outcome.  Stateful calls (prompts, stat, rm, mkdir,
exec, readFile, writeFile) become trace events; early exits (cancellation,
rejected promises) become the `cancelled` and `fatal` outcomes.
-/

/-- A template catalog entry (`ProjectTemplate` from lithia/types). -/
structure ProjectTemplate where
  name : String
  branch : String
  url : String
  description : String
deriving DecidableEq

/-- The static template catalog (src/cli/index.ts lines 26-45). -/
def templates : List ProjectTemplate :=
  [{ name := "default", branch := "main",
     url := "https://github.com/lithiajs/lithia-default-app-template.git",
     description := "Setup a Lithia.js app with no presets" },
   { name := "with-drizzle", branch := "main",
     url := "https://github.com/lithiajs/lithia-with-drizzle-template.git",
     description := "Setup a Lithia.js app using Drizzle ORM" },
   { name := "with-prisma", branch := "main",
     url := "https://github.com/lithiajs/lithia-with-prisma-template.git",
     description := "Setup a Lithia.js app using Prisma ORM" }]

/-- A JSON value, the shape `JSON.parse` produces (numbers simplified to
integers; none of the patched fields are numeric). -/
inductive JValue where
  | str (s : String)
  | num (n : Int)
  | jbool (b : Bool)
  | null
  | arr (xs : List JValue)
  | obj (fs : List (String × JValue))

/-- `o[k]` on a JavaScript object represented as its ordered field list. -/
def lookupField : List (String × JValue) → String → Option JValue
  | [], _ => none
  | (k2, v) :: fs, k => if k2 = k then some v else lookupField fs k

/-- `o[k] = v` on a JavaScript object: overwrite the field in place if it is
present, otherwise append it. -/
def setField : List (String × JValue) → String → JValue → List (String × JValue)
  | [], k, v => [(k, v)]
  | (k2, v2) :: fs, k, v =>
      if k2 = k then (k, v) :: fs else (k2, v2) :: setField fs k v

/-- `delete o[k]` on a JavaScript object. -/
def deleteField : List (String × JValue) → String → List (String × JValue)
  | [], _ => []
  | (k2, v2) :: fs, k =>
      if k2 = k then deleteField fs k else (k2, v2) :: deleteField fs k

/-- The Manifest Patcher mutation (src/cli/index.ts lines 155-158):
set `name` to the entered project name, set `version` to "0.1.0", and
delete `description`. -/
def patchManifest (pName : String) (m : List (String × JValue)) :
    List (String × JValue) :=
  deleteField
    (setField (setField m "name" (JValue.str pName)) "version" (JValue.str "0.1.0"))
    "description"

/-- `w * d` spaces: the indentation prefix `JSON.stringify` uses at nesting
depth `d` when called with indent width `w`. -/
def jsonIndent (w d : Nat) : String := String.join (List.replicate (w * d) " ")

/-- The escaping `JSON.stringify` applies inside a quoted string (the common
escapes; control characters other than these do not occur in manifests). -/
def escapeChar (c : Char) : String :=
  if c = '"' then "\\\""
  else if c = '\\' then "\\\\"
  else if c = '\n' then "\\n"
  else if c = '\r' then "\\r"
  else if c = '\t' then "\\t"
  else String.singleton c

/-- A quoted, escaped JSON string literal. -/
def quoteString (s : String) : String :=
  "\"" ++ String.join (s.data.map escapeChar) ++ "\""

mutual

/-- `JSON.stringify(v, null, w)` at nesting depth `d`, for indent width
`w > 0` (the source calls it with `w = 2`). -/
def stringifyVal (w d : Nat) : JValue → String
  | .str s => quoteString s
  | .num n => toString n
  | .jbool b => if b then "true" else "false"
  | .null => "null"
  | .arr [] => "[]"
  | .arr (x :: xs) =>
      "[\n" ++ stringifyElems w (d + 1) x xs ++ "\n" ++ jsonIndent w d ++ "]"
  | .obj [] => "\x7b\x7d"
  | .obj ((k, v) :: fs) =>
      "\x7b\n" ++ stringifyFields w (d + 1) k v fs ++ "\n" ++ jsonIndent w d ++ "\x7d"
termination_by v => sizeOf v

/-- The comma-and-newline separated lines of a stringified array. -/
def stringifyElems (w d : Nat) (x : JValue) : List JValue → String
  | [] => jsonIndent w d ++ stringifyVal w d x
  | y :: ys => jsonIndent w d ++ stringifyVal w d x ++ ",\n" ++ stringifyElems w d y ys
termination_by l => sizeOf x + sizeOf l

/-- The comma-and-newline separated lines of a stringified object. -/
def stringifyFields (w d : Nat) (k : String) (v : JValue) :
    List (String × JValue) → String
  | [] => jsonIndent w d ++ quoteString k ++ ": " ++ stringifyVal w d v
  | (k2, v2) :: gs =>
      jsonIndent w d ++ quoteString k ++ ": " ++ stringifyVal w d v ++ ",\n"
        ++ stringifyFields w d k2 v2 gs
termination_by l => sizeOf v + sizeOf l

end

/-- `JSON.stringify(v, null, w)`. -/
def jsonStringify (w : Nat) (v : JValue) : String := stringifyVal w 0 v

/-- One observable step of a run: prompt rendering, console output,
filesystem primitives and external-process invocations, in program order. -/
inductive Event where
  | statDir (p : String)
  | promptShown (q : String)
  | infoMsg (m : String)
  | rmRec (p : String)
  | mkdirRec (p : String)
  | execCmd (cmd : String) (cwd : String)
  | readF (p : String)
  | writeF (p : String) (content : String)
deriving DecidableEq

/-- How a run ends: `completed` is the Reporter's `process.exit(0)`,
`cancelled` is the `process.exit(0)` after a cancellation notice, and
`fatal` is a rejected promise escaping `run` (the CLI framework then reports
the error and the process exits non-zero). -/
inductive Outcome where
  | completed
  | cancelled
  | fatal
deriving DecidableEq

/-- The exit status the script itself produces: 0 on completion and on user
cancellation; on a fatal error no exit code is produced by the script (the
framework turns the escaped rejection into a non-zero exit). -/
def Outcome.exitCode : Outcome → Option Nat
  | .completed => some 0
  | .cancelled => some 0
  | .fatal => none

/-- Events that mutate the filesystem: deletions, directory creation, file
writes, and spawned commands (clone, git init, install all write inside the
workspace).  `stat`, reads, prompts and console output mutate nothing. -/
def isMutation : Event → Bool
  | .rmRec _ => true
  | .mkdirRec _ => true
  | .writeF _ _ => true
  | .execCmd _ _ => true
  | _ => false

/-- Everything the outside world contributes to one execution: host tool
availability (the Capability Probe results), the answers the user gives,
and what the filesystem and the spawned processes report back. -/
structure Env where
  /-- `pingVersion('npm')` result. -/
  npmInstalled : Bool
  /-- `pingVersion('yarn')` result. -/
  yarnInstalled : Bool
  /-- `pingVersion('git')` result. -/
  gitInstalled : Bool
  /-- `process.cwd()`. -/
  cwd : String
  /-- The user aborts the interactive session at this rendered question
  index; `none` (or an out-of-range index) means every question is answered. -/
  abortAt : Option Nat
  /-- Answer to the project-name question (already trimmed by `format`). -/
  pName : String
  /-- Answer to the template select. -/
  pTemplate : ProjectTemplate
  /-- Answer to the install-dependencies confirm. -/
  pInstallDeps : Bool
  /-- Answer to the package-manager select (only rendered when
  `pInstallDeps` is true). -/
  pInstallDepsManager : String
  /-- Answer to the git-init confirm (only rendered when `gitInstalled`). -/
  pGitInit : Bool
  /-- Whether `stat` finds the resolved target directory already existing. -/
  dirExists : Bool
  /-- Answer to the overwrite confirm; `none` models aborting that prompt
  (`prompts` then resolves without a `pOverwrite` value, which is falsy). -/
  pOverwrite : Option Bool
  /-- Whether `git clone` exits non-zero. -/
  cloneFails : Bool
  /-- Whether `.git` exists in the workspace after the clone. -/
  gitDirExists : Bool
  /-- Whether `package-lock.json` exists in the workspace after the clone. -/
  lockfileExists : Bool
  /-- `package.json` parsed as a structured record; `none` models a missing
  file or content that does not parse as a JSON object. -/
  manifest : Option (List (String × JValue))
  /-- Whether `git init` exits non-zero. -/
  gitInitFails : Bool
  /-- Whether `<manager> install` exits non-zero. -/
  installFails : Bool

/-- `path.resolve(process.cwd(), answers.pName)` for a relative name. -/
def dir (env : Env) : String := env.cwd ++ "/" ++ env.pName

/-- `path.resolve(dir, '.git')`. -/
def gitDirPath (env : Env) : String := dir env ++ "/.git"

/-- `path.resolve(dir, 'package-lock.json')`. -/
def lockfilePath (env : Env) : String := dir env ++ "/package-lock.json"

/-- `path.resolve(dir, 'package.json')`. -/
def manifestPath (env : Env) : String := dir env ++ "/package.json"

/-- The clone invocation (src/cli/index.ts line 130). -/
def cloneCmd (env : Env) : String :=
  "git clone --branch " ++ env.pTemplate.branch ++ " " ++ env.pTemplate.url ++ " ."

/-- The install invocation (src/cli/index.ts line 187). -/
def installCmd (env : Env) : String := env.pInstallDepsManager ++ " install"

/-- Names of the questions `prompts` actually renders, in order: the
package-manager select has type `prev ? 'select' : null`, so it is rendered
only when the install confirm was answered true, and the git-init confirm
has type `!gitInstalled ? null : 'confirm'`, so it is rendered only when git
was detected (src/cli/index.ts lines 53-94). -/
def renderedQuestions (env : Env) : List String :=
  ["pName", "pTemplate", "pInstallDeps"]
    ++ (if env.pInstallDeps then ["pInstallDepsManager"] else [])
    ++ (if env.gitInstalled then ["pGitInit"] else [])

/-- The Reporter (src/cli/index.ts lines 202-211): closing messages, then
`process.exit(0)`.  Each phase function returns the events it contributes
itself; callers prepend the earlier events. -/
def reporter (env : Env) : List Event × Outcome :=
  ([Event.infoMsg "Hold on, we are almost there!",
    Event.infoMsg
      "Your project is ready to go, now you just need to run the following commands:",
    Event.infoMsg ("├───> cd " ++ env.pName),
    Event.infoMsg ("└───> " ++ env.pInstallDepsManager ++ " run dev")],
   Outcome.completed)

/-- The dependency-install step (src/cli/index.ts lines 182-200): run
`<manager> install` in the workspace when the install confirm was answered
true; a non-zero exit rejects and aborts the run. -/
def runInstall (env : Env) : List Event × Outcome :=
  if env.pInstallDeps then
    if env.installFails then
      ([Event.execCmd (installCmd env) (dir env)], Outcome.fatal)
    else
      (Event.execCmd (installCmd env) (dir env) :: (reporter env).1, (reporter env).2)
  else
    reporter env

/-- The git-init step (src/cli/index.ts lines 166-180): `answers.pGitInit`
is undefined (falsy) when the question was skipped, so the step runs only
when git was detected and the confirm was answered true. -/
def runGitInit (env : Env) : List Event × Outcome :=
  if env.gitInstalled && env.pGitInit then
    if env.gitInitFails then
      ([Event.execCmd "git init" (dir env)], Outcome.fatal)
    else
      (Event.execCmd "git init" (dir env) :: (runInstall env).1, (runInstall env).2)
  else
    runInstall env

/-- The Template Materializer and Manifest Patcher steps (src/cli/index.ts
lines 126-164).  The clone runs in the workspace; a non-zero exit rejects
and aborts.  Then `Promise.all` starts both deletions; `rm` is called with
`recursive: true` but without `force`, so it rejects with ENOENT when its
path is missing, failing the step.  Then `package.json` is read, parsed,
patched and written back with `JSON.stringify(pJson, null, 2)`. -/
def runClone (env : Env) : List Event × Outcome :=
  if env.cloneFails then
    ([Event.execCmd (cloneCmd env) (dir env)], Outcome.fatal)
  else if env.gitDirExists && env.lockfileExists then
    match env.manifest with
    | none =>
        ([Event.execCmd (cloneCmd env) (dir env),
          Event.rmRec (gitDirPath env), Event.rmRec (lockfilePath env),
          Event.readF (manifestPath env)],
         Outcome.fatal)
    | some m =>
        ([Event.execCmd (cloneCmd env) (dir env),
          Event.rmRec (gitDirPath env), Event.rmRec (lockfilePath env),
          Event.readF (manifestPath env),
          Event.writeF (manifestPath env)
            (jsonStringify 2 (JValue.obj (patchManifest env.pName m)))]
           ++ (runGitInit env).1,
         (runGitInit env).2)
  else
    ([Event.execCmd (cloneCmd env) (dir env),
      Event.rmRec (gitDirPath env), Event.rmRec (lockfilePath env)],
     Outcome.fatal)

/-- The Workspace Preparer (src/cli/index.ts lines 103-124): stat the
target; if it exists, confirm overwriting (any falsy answer, including an
aborted prompt, cancels with exit 0; a confirmation removes the directory
recursively); then create the directory and continue with the clone. -/
def runAfterAnswers (env : Env) : List Event × Outcome :=
  if env.dirExists then
    if env.pOverwrite = some true then
      ([Event.statDir (dir env), Event.promptShown "pOverwrite",
        Event.rmRec (dir env), Event.mkdirRec (dir env)] ++ (runClone env).1,
       (runClone env).2)
    else
      ([Event.statDir (dir env), Event.promptShown "pOverwrite",
        Event.infoMsg "Operation cancelled"],
       Outcome.cancelled)
  else
    ([Event.statDir (dir env), Event.mkdirRec (dir env)] ++ (runClone env).1,
     (runClone env).2)

/-- One whole execution of the CLI `run` function: the Answer Collector
(`prompts` with `onCancel` printing a cancellation notice and exiting 0),
then everything after it. -/
def run (env : Env) : List Event × Outcome :=
  match env.abortAt with
  | some i =>
      if i < (renderedQuestions env).length then
        (((renderedQuestions env).take (i + 1)).map Event.promptShown
            ++ [Event.infoMsg "Operation cancelled"],
         Outcome.cancelled)
      else
        ((renderedQuestions env).map Event.promptShown ++ (runAfterAnswers env).1,
         (runAfterAnswers env).2)
  | none =>
      ((renderedQuestions env).map Event.promptShown ++ (runAfterAnswers env).1,
       (runAfterAnswers env).2)

/-- The events of the Manifest Patcher step (src/cli/index.ts lines
144-163), as one unit of work: the two deletions (`.git` and the lockfile),
the manifest read, and the manifest rewrite. -/
def isPatcherEvent (env : Env) (e : Event) : Prop :=
  e = Event.rmRec (gitDirPath env) ∨
  e = Event.rmRec (lockfilePath env) ∨
  e = Event.readF (manifestPath env) ∨
  ∃ c, e = Event.writeF (manifestPath env) c

/-! ## Lemmas about the manifest patch -/

theorem lookupField_setField_self (fs : List (String × JValue)) (k : String) (v : JValue) :
    lookupField (setField fs k v) k = some v := by
  induction fs with
  | nil => simp [setField, lookupField]
  | cons p fs ih =>
      obtain ⟨k2, v2⟩ := p
      by_cases h : k2 = k <;> simp [setField, lookupField, h, ih]

theorem lookupField_setField_ne (fs : List (String × JValue)) (k j : String) (v : JValue)
    (hkj : k ≠ j) : lookupField (setField fs k v) j = lookupField fs j := by
  induction fs with
  | nil => simp [setField, lookupField, hkj]
  | cons p fs ih =>
      obtain ⟨k2, v2⟩ := p
      by_cases h : k2 = k
      · subst h
        simp [setField, lookupField, hkj]
      · simp [setField, lookupField, h, ih]

theorem lookupField_deleteField_self (fs : List (String × JValue)) (k : String) :
    lookupField (deleteField fs k) k = none := by
  induction fs with
  | nil => simp [deleteField, lookupField]
  | cons p fs ih =>
      obtain ⟨k2, v2⟩ := p
      by_cases h : k2 = k <;> simp [deleteField, lookupField, h, ih]

theorem lookupField_deleteField_ne (fs : List (String × JValue)) (k j : String)
    (hkj : k ≠ j) : lookupField (deleteField fs k) j = lookupField fs j := by
  induction fs with
  | nil => simp [deleteField, lookupField]
  | cons p fs ih =>
      obtain ⟨k2, v2⟩ := p
      by_cases h : k2 = k
      · subst h
        simp [deleteField, lookupField, hkj, ih]
      · simp [deleteField, lookupField, h, ih]

theorem patchManifest_name (n : String) (m : List (String × JValue)) :
    lookupField (patchManifest n m) "name" = some (JValue.str n) := by
  unfold patchManifest
  rw [lookupField_deleteField_ne _ _ _ (by decide),
    lookupField_setField_ne _ _ _ _ (by decide), lookupField_setField_self]

theorem patchManifest_version (n : String) (m : List (String × JValue)) :
    lookupField (patchManifest n m) "version" = some (JValue.str "0.1.0") := by
  unfold patchManifest
  rw [lookupField_deleteField_ne _ _ _ (by decide), lookupField_setField_self]

theorem patchManifest_description (n : String) (m : List (String × JValue)) :
    lookupField (patchManifest n m) "description" = none := by
  unfold patchManifest
  rw [lookupField_deleteField_self]

theorem patchManifest_other (n : String) (m : List (String × JValue)) (j : String)
    (h1 : j ≠ "name") (h2 : j ≠ "version") (h3 : j ≠ "description") :
    lookupField (patchManifest n m) j = lookupField m j := by
  unfold patchManifest
  rw [lookupField_deleteField_ne _ _ _ (Ne.symm h3),
    lookupField_setField_ne _ _ _ _ (Ne.symm h2),
    lookupField_setField_ne _ _ _ _ (Ne.symm h1)]

/-! ## String helpers: telling the three spawned commands apart -/

theorem ne_of_data_getLast_ne (s t : String) (h : s.data.getLast? ≠ t.data.getLast?) :
    s ≠ t := by
  intro he
  exact h (by rw [he])

theorem data_getLast_append (a b : String) (hb : b.data ≠ []) :
    (a ++ b).data.getLast? = b.data.getLast? := by
  rw [String.data_append]
  exact List.getLast?_append_of_ne_nil _ hb

theorem cloneCmd_data_getLast (env : Env) : (cloneCmd env).data.getLast? = some '.' := by
  unfold cloneCmd
  rw [data_getLast_append _ _ (by decide)]
  decide

theorem installCmd_ne_cloneCmd (m : String) (env : Env) : m ++ " install" ≠ cloneCmd env := by
  apply ne_of_data_getLast_ne
  rw [data_getLast_append _ _ (by decide), cloneCmd_data_getLast]
  decide

theorem installCmd_ne_gitInit (m : String) : m ++ " install" ≠ "git init" := by
  apply ne_of_data_getLast_ne
  rw [data_getLast_append _ _ (by decide)]
  decide

theorem gitInit_ne_cloneCmd (env : Env) : ("git init" : String) ≠ cloneCmd env := by
  apply ne_of_data_getLast_ne
  rw [cloneCmd_data_getLast]
  decide

/-! ## Which events each phase can emit -/

theorem execCmd_mem_runInstall (env : Env) (c d : String)
    (h : Event.execCmd c d ∈ (runInstall env).1) :
    env.pInstallDeps = true ∧ c = installCmd env ∧ d = dir env := by
  cases hi : env.pInstallDeps <;> cases hf : env.installFails <;>
    simp_all [runInstall, reporter, hi, hf]

theorem execCmd_mem_runGitInit (env : Env) (c d : String)
    (h : Event.execCmd c d ∈ (runGitInit env).1) :
    (env.gitInstalled = true ∧ env.pGitInit = true ∧ c = "git init" ∧ d = dir env) ∨
    (env.pInstallDeps = true ∧ c = installCmd env ∧ d = dir env) := by
  unfold runGitInit at h
  cases hg : (env.gitInstalled && env.pGitInit) with
  | false =>
      rw [hg] at h
      simp only [if_false, Bool.false_eq_true] at h
      exact Or.inr (execCmd_mem_runInstall env c d h)
  | true =>
      rw [hg] at h
      simp only [if_true] at h
      rw [Bool.and_eq_true] at hg
      cases hf : env.gitInitFails <;> rw [hf] at h
      · simp only [Bool.false_eq_true, if_false, List.mem_cons] at h
        rcases h with h | h
        · cases h
          exact Or.inl ⟨hg.1, hg.2, rfl, rfl⟩
        · exact Or.inr (execCmd_mem_runInstall env c d h)
      · simp only [if_true, List.mem_singleton] at h
        cases h
        exact Or.inl ⟨hg.1, hg.2, rfl, rfl⟩

theorem execCmd_mem_runClone (env : Env) (c d : String)
    (h : Event.execCmd c d ∈ (runClone env).1) :
    (c = cloneCmd env ∧ d = dir env) ∨
    (env.gitInstalled = true ∧ env.pGitInit = true ∧ c = "git init" ∧ d = dir env) ∨
    (env.pInstallDeps = true ∧ c = installCmd env ∧ d = dir env) := by
  unfold runClone at h
  cases hc : env.cloneFails <;> rw [hc] at h
  · simp only [Bool.false_eq_true, if_false] at h
    cases hgl : (env.gitDirExists && env.lockfileExists) <;> rw [hgl] at h
    · simp only [Bool.false_eq_true, if_false] at h
      simp at h
      exact Or.inl h
    · simp only [if_true] at h
      cases hm : env.manifest with
      | none =>
          rw [hm] at h
          simp at h
          exact Or.inl h
      | some m =>
          rw [hm] at h
          simp at h
          rcases h with h | h
          · exact Or.inl h
          · exact Or.inr (execCmd_mem_runGitInit env c d h)
  · simp only [if_true, List.mem_singleton] at h
    cases h
    exact Or.inl ⟨rfl, rfl⟩

theorem execCmd_mem_runAfterAnswers (env : Env) (c d : String)
    (h : Event.execCmd c d ∈ (runAfterAnswers env).1) :
    (c = cloneCmd env ∧ d = dir env) ∨
    (env.gitInstalled = true ∧ env.pGitInit = true ∧ c = "git init" ∧ d = dir env) ∨
    (env.pInstallDeps = true ∧ c = installCmd env ∧ d = dir env) := by
  unfold runAfterAnswers at h
  cases hd : env.dirExists <;> rw [hd] at h
  · simp at h
    exact execCmd_mem_runClone env c d h
  · simp only [if_true] at h
    by_cases hov : env.pOverwrite = some true
    · rw [if_pos hov] at h
      simp at h
      exact execCmd_mem_runClone env c d h
    · rw [if_neg hov] at h
      simp at h

theorem execCmd_mem_run (env : Env) (c d : String)
    (h : Event.execCmd c d ∈ (run env).1) :
    (c = cloneCmd env ∧ d = dir env) ∨
    (env.gitInstalled = true ∧ env.pGitInit = true ∧ c = "git init" ∧ d = dir env) ∨
    (env.pInstallDeps = true ∧ c = installCmd env ∧ d = dir env) := by
  unfold run at h
  have hmap : ∀ l : List String, Event.execCmd c d ∉ l.map Event.promptShown := by
    intro l hmem
    simp [List.mem_map] at hmem
  cases hab : env.abortAt with
  | some i =>
      simp only [hab] at h
      by_cases hi : i < (renderedQuestions env).length
      · rw [if_pos hi] at h
        simp only [List.mem_append, List.mem_singleton] at h
        rcases h with h | h
        · exact absurd h (hmap _)
        · cases h
      · rw [if_neg hi] at h
        simp only [List.mem_append] at h
        rcases h with h | h
        · exact absurd h (hmap _)
        · exact execCmd_mem_runAfterAnswers env c d h
  | none =>
      simp only [hab] at h
      simp only [List.mem_append] at h
      rcases h with h | h
      · exact absurd h (hmap _)
      · exact execCmd_mem_runAfterAnswers env c d h

theorem promptShown_not_mem_runInstall (env : Env) (q : String) :
    Event.promptShown q ∉ (runInstall env).1 := by
  cases hi : env.pInstallDeps <;> cases hf : env.installFails <;>
    simp [runInstall, reporter, hi, hf]

theorem promptShown_not_mem_runGitInit (env : Env) (q : String) :
    Event.promptShown q ∉ (runGitInit env).1 := by
  unfold runGitInit
  cases hg : (env.gitInstalled && env.pGitInit) <;> cases hf : env.gitInitFails <;>
    simp [hg, hf, promptShown_not_mem_runInstall]

theorem promptShown_not_mem_runClone (env : Env) (q : String) :
    Event.promptShown q ∉ (runClone env).1 := by
  unfold runClone
  cases hc : env.cloneFails <;> cases hgl : (env.gitDirExists && env.lockfileExists) <;>
    cases hm : env.manifest <;>
      simp [hc, hgl, hm, promptShown_not_mem_runGitInit]

theorem promptShown_mem_runAfterAnswers (env : Env) (q : String)
    (h : Event.promptShown q ∈ (runAfterAnswers env).1) : q = "pOverwrite" := by
  unfold runAfterAnswers at h
  cases hd : env.dirExists <;> rw [hd] at h
  · simp [promptShown_not_mem_runClone] at h
  · simp only [if_true] at h
    by_cases hov : env.pOverwrite = some true
    · rw [if_pos hov] at h
      simp [promptShown_not_mem_runClone] at h
      exact h
    · rw [if_neg hov] at h
      simp at h
      exact h

theorem promptShown_mem_run (env : Env) (q : String)
    (h : Event.promptShown q ∈ (run env).1) :
    q ∈ renderedQuestions env ∨ q = "pOverwrite" := by
  unfold run at h
  cases hab : env.abortAt with
  | some i =>
      simp only [hab] at h
      by_cases hi : i < (renderedQuestions env).length
      · rw [if_pos hi] at h
        simp only [List.mem_append, List.mem_singleton] at h
        rcases h with h | h
        · rw [List.mem_map] at h
          obtain ⟨q2, hq2, he⟩ := h
          cases he
          exact Or.inl (List.take_subset _ _ hq2)
        · cases h
      · rw [if_neg hi] at h
        simp only [List.mem_append] at h
        rcases h with h | h
        · rw [List.mem_map] at h
          obtain ⟨q2, hq2, he⟩ := h
          cases he
          exact Or.inl hq2
        · exact Or.inr (promptShown_mem_runAfterAnswers env q h)
  | none =>
      simp only [hab] at h
      simp only [List.mem_append] at h
      rcases h with h | h
      · rw [List.mem_map] at h
        obtain ⟨q2, hq2, he⟩ := h
        cases he
        exact Or.inl hq2
      · exact Or.inr (promptShown_mem_runAfterAnswers env q h)

/-! ## Branch equations for the run phases -/

theorem run_eq_abort (env : Env) (i : Nat) (hab : env.abortAt = some i)
    (hi : i < (renderedQuestions env).length) :
    run env = (((renderedQuestions env).take (i + 1)).map Event.promptShown
        ++ [Event.infoMsg "Operation cancelled"], Outcome.cancelled) := by
  unfold run
  rw [hab]
  simp [hi]

theorem run_eq_proceed (env : Env)
    (hab : env.abortAt = none ∨
      ∃ i, env.abortAt = some i ∧ ¬ i < (renderedQuestions env).length) :
    run env = ((renderedQuestions env).map Event.promptShown ++ (runAfterAnswers env).1,
        (runAfterAnswers env).2) := by
  unfold run
  rcases hab with hab | ⟨i, hab, hi⟩
  · rw [hab]
  · rw [hab]
    simp [hi]

theorem runAfterAnswers_eq_fresh (env : Env) (hd : env.dirExists = false) :
    runAfterAnswers env =
      ([Event.statDir (dir env), Event.mkdirRec (dir env)] ++ (runClone env).1,
       (runClone env).2) := by
  unfold runAfterAnswers
  rw [if_neg (by simp [hd])]

theorem runAfterAnswers_eq_cancel (env : Env) (hd : env.dirExists = true)
    (hov : ¬ env.pOverwrite = some true) :
    runAfterAnswers env =
      ([Event.statDir (dir env), Event.promptShown "pOverwrite",
        Event.infoMsg "Operation cancelled"], Outcome.cancelled) := by
  unfold runAfterAnswers
  rw [if_pos hd, if_neg hov]

theorem runAfterAnswers_eq_overwrite (env : Env) (hd : env.dirExists = true)
    (hov : env.pOverwrite = some true) :
    runAfterAnswers env =
      ([Event.statDir (dir env), Event.promptShown "pOverwrite",
        Event.rmRec (dir env), Event.mkdirRec (dir env)] ++ (runClone env).1,
       (runClone env).2) := by
  unfold runAfterAnswers
  rw [if_pos hd, if_pos hov]

theorem runClone_eq_cloneFail (env : Env) (hc : env.cloneFails = true) :
    runClone env = ([Event.execCmd (cloneCmd env) (dir env)], Outcome.fatal) := by
  unfold runClone
  rw [if_pos hc]

theorem runClone_eq_missingPath (env : Env) (hc : env.cloneFails = false)
    (hgl : (env.gitDirExists && env.lockfileExists) = false) :
    runClone env =
      ([Event.execCmd (cloneCmd env) (dir env),
        Event.rmRec (gitDirPath env), Event.rmRec (lockfilePath env)],
       Outcome.fatal) := by
  unfold runClone
  rw [if_neg (by simp [hc]), if_neg (by simp [hgl])]

theorem runClone_eq_noManifest (env : Env) (hc : env.cloneFails = false)
    (hgl : (env.gitDirExists && env.lockfileExists) = true)
    (hm : env.manifest = none) :
    runClone env =
      ([Event.execCmd (cloneCmd env) (dir env),
        Event.rmRec (gitDirPath env), Event.rmRec (lockfilePath env),
        Event.readF (manifestPath env)],
       Outcome.fatal) := by
  unfold runClone
  rw [if_neg (by simp [hc]), if_pos hgl, hm]

theorem runClone_eq_patch (env : Env) (m : List (String × JValue))
    (hc : env.cloneFails = false)
    (hgl : (env.gitDirExists && env.lockfileExists) = true)
    (hm : env.manifest = some m) :
    runClone env =
      ([Event.execCmd (cloneCmd env) (dir env),
        Event.rmRec (gitDirPath env), Event.rmRec (lockfilePath env),
        Event.readF (manifestPath env),
        Event.writeF (manifestPath env)
          (jsonStringify 2 (JValue.obj (patchManifest env.pName m)))]
         ++ (runGitInit env).1,
       (runGitInit env).2) := by
  unfold runClone
  rw [if_neg (by simp [hc]), if_pos hgl, hm]

/-! ## What a completed run forces -/

theorem runClone_completed (env : Env) (h : (runClone env).2 = Outcome.completed) :
    env.cloneFails = false ∧ (env.gitDirExists && env.lockfileExists) = true ∧
    ∃ m, env.manifest = some m ∧
      Event.writeF (manifestPath env)
        (jsonStringify 2 (JValue.obj (patchManifest env.pName m))) ∈ (runClone env).1 := by
  by_cases hc : env.cloneFails = true
  · rw [runClone_eq_cloneFail env hc] at h
    simp at h
  · rw [Bool.not_eq_true] at hc
    by_cases hgl : (env.gitDirExists && env.lockfileExists) = true
    · cases hm : env.manifest with
      | none =>
          rw [runClone_eq_noManifest env hc hgl hm] at h
          simp at h
      | some m =>
          refine ⟨hc, hgl, m, rfl, ?_⟩
          rw [runClone_eq_patch env m hc hgl hm]
          simp
    · rw [Bool.not_eq_true] at hgl
      rw [runClone_eq_missingPath env hc hgl] at h
      simp at h

theorem runAfterAnswers_completed (env : Env)
    (h : (runAfterAnswers env).2 = Outcome.completed) :
    env.cloneFails = false ∧ (env.gitDirExists && env.lockfileExists) = true ∧
    ∃ m, env.manifest = some m ∧
      Event.writeF (manifestPath env)
        (jsonStringify 2 (JValue.obj (patchManifest env.pName m)))
          ∈ (runAfterAnswers env).1 := by
  by_cases hd : env.dirExists = true
  · by_cases hov : env.pOverwrite = some true
    · rw [runAfterAnswers_eq_overwrite env hd hov] at h ⊢
      obtain ⟨h1, h2, m, h3, h4⟩ := runClone_completed env h
      exact ⟨h1, h2, m, h3, by simp [h4]⟩
    · rw [runAfterAnswers_eq_cancel env hd hov] at h
      simp at h
  · rw [Bool.not_eq_true] at hd
    rw [runAfterAnswers_eq_fresh env hd] at h ⊢
    obtain ⟨h1, h2, m, h3, h4⟩ := runClone_completed env h
    exact ⟨h1, h2, m, h3, by simp [h4]⟩

theorem run_completed (env : Env) (h : (run env).2 = Outcome.completed) :
    env.cloneFails = false ∧ (env.gitDirExists && env.lockfileExists) = true ∧
    ∃ m, env.manifest = some m ∧
      Event.writeF (manifestPath env)
        (jsonStringify 2 (JValue.obj (patchManifest env.pName m))) ∈ (run env).1 := by
  cases hab : env.abortAt with
  | some i =>
      by_cases hi : i < (renderedQuestions env).length
      · rw [run_eq_abort env i hab hi] at h
        simp at h
      · rw [run_eq_proceed env (Or.inr ⟨i, hab, hi⟩)] at h ⊢
        obtain ⟨h1, h2, m, h3, h4⟩ := runAfterAnswers_completed env h
        exact ⟨h1, h2, m, h3, by simp [h4]⟩
  | none =>
      rw [run_eq_proceed env (Or.inl hab)] at h ⊢
      obtain ⟨h1, h2, m, h3, h4⟩ := runAfterAnswers_completed env h
      exact ⟨h1, h2, m, h3, by simp [h4]⟩

/-! ## Where the manifest read can occur -/

theorem runClone_shape (env : Env) (hc : env.cloneFails = false) :
    ∃ rest, (runClone env).1 = Event.execCmd (cloneCmd env) (dir env) :: rest ∧
      (Event.readF (manifestPath env) ∈ (runClone env).1 →
        Event.readF (manifestPath env) ∈ rest) := by
  by_cases hgl : (env.gitDirExists && env.lockfileExists) = true
  · cases hm : env.manifest with
    | none =>
        rw [runClone_eq_noManifest env hc hgl hm]
        exact ⟨_, rfl, by simp⟩
    | some m =>
        rw [runClone_eq_patch env m hc hgl hm]
        refine ⟨[Event.rmRec (gitDirPath env), Event.rmRec (lockfilePath env),
          Event.readF (manifestPath env),
          Event.writeF (manifestPath env)
            (jsonStringify 2 (JValue.obj (patchManifest env.pName m)))]
            ++ (runGitInit env).1, by simp, by simp⟩
  · rw [Bool.not_eq_true] at hgl
    rw [runClone_eq_missingPath env hc hgl]
    exact ⟨_, rfl, by simp⟩

theorem readF_mem_runAfterAnswers (env : Env)
    (h : Event.readF (manifestPath env) ∈ (runAfterAnswers env).1) :
    env.cloneFails = false ∧
    ∃ pre post,
      (runAfterAnswers env).1 = pre ++ Event.execCmd (cloneCmd env) (dir env) :: post ∧
      Event.readF (manifestPath env) ∈ post := by
  by_cases hc : env.cloneFails = true
  · exfalso
    by_cases hd : env.dirExists = true
    · by_cases hov : env.pOverwrite = some true
      · rw [runAfterAnswers_eq_overwrite env hd hov, runClone_eq_cloneFail env hc] at h
        simp at h
      · rw [runAfterAnswers_eq_cancel env hd hov] at h
        simp at h
    · rw [Bool.not_eq_true] at hd
      rw [runAfterAnswers_eq_fresh env hd, runClone_eq_cloneFail env hc] at h
      simp at h
  · rw [Bool.not_eq_true] at hc
    obtain ⟨rest, hre, himp⟩ := runClone_shape env hc
    refine ⟨hc, ?_⟩
    by_cases hd : env.dirExists = true
    · by_cases hov : env.pOverwrite = some true
      · rw [runAfterAnswers_eq_overwrite env hd hov] at h ⊢
        refine ⟨[Event.statDir (dir env), Event.promptShown "pOverwrite",
          Event.rmRec (dir env), Event.mkdirRec (dir env)], rest, by rw [hre], ?_⟩
        apply himp
        rw [hre] at h ⊢
        simp at h
        simp [h]
      · rw [runAfterAnswers_eq_cancel env hd hov] at h
        simp at h
    · rw [Bool.not_eq_true] at hd
      rw [runAfterAnswers_eq_fresh env hd] at h ⊢
      refine ⟨[Event.statDir (dir env), Event.mkdirRec (dir env)], rest, by rw [hre], ?_⟩
      apply himp
      rw [hre] at h ⊢
      simp at h
      simp [h]

theorem readF_mem_run (env : Env)
    (h : Event.readF (manifestPath env) ∈ (run env).1) :
    env.cloneFails = false ∧
    ∃ pre post,
      (run env).1 = pre ++ Event.execCmd (cloneCmd env) (dir env) :: post ∧
      Event.readF (manifestPath env) ∈ post := by
  cases hab : env.abortAt with
  | some i =>
      by_cases hi : i < (renderedQuestions env).length
      · rw [run_eq_abort env i hab hi] at h
        exfalso
        simp only [List.mem_append, List.mem_singleton] at h
        rcases h with h | h
        · rw [List.mem_map] at h
          obtain ⟨q, _, hq⟩ := h
          cases hq
        · cases h
      · rw [run_eq_proceed env (Or.inr ⟨i, hab, hi⟩)] at h ⊢
        simp only [List.mem_append] at h
        rcases h with h | h
        · exfalso
          rw [List.mem_map] at h
          obtain ⟨q, _, hq⟩ := h
          cases hq
        · obtain ⟨h1, pre, post, h2, h3⟩ := readF_mem_runAfterAnswers env h
          exact ⟨h1, (renderedQuestions env).map Event.promptShown ++ pre, post,
            by rw [h2]; simp, h3⟩
  | none =>
      rw [run_eq_proceed env (Or.inl hab)] at h ⊢
      simp only [List.mem_append] at h
      rcases h with h | h
      · exfalso
        rw [List.mem_map] at h
        obtain ⟨q, _, hq⟩ := h
        cases hq
      · obtain ⟨h1, pre, post, h2, h3⟩ := readF_mem_runAfterAnswers env h
        exact ⟨h1, (renderedQuestions env).map Event.promptShown ++ pre, post,
          by rw [h2]; simp, h3⟩

/-! ## Small helpers about prompt-rendering events -/

theorem isMutation_prompt_map (l : List String) :
    ∀ e ∈ l.map Event.promptShown, isMutation e = false := by
  intro e he
  rw [List.mem_map] at he
  obtain ⟨q, _, hq⟩ := he
  subst hq
  rfl

theorem readF_not_mem_prompt_map (l : List String) (p : String) :
    Event.readF p ∉ l.map Event.promptShown := by
  intro h
  rw [List.mem_map] at h
  obtain ⟨q, _, hq⟩ := h
  cases hq

theorem writeF_not_mem_prompt_map (l : List String) (p c : String) :
    Event.writeF p c ∉ l.map Event.promptShown := by
  intro h
  rw [List.mem_map] at h
  obtain ⟨q, _, hq⟩ := h
  cases hq

theorem execCmd_not_mem_prompt_map (l : List String) (c d : String) :
    Event.execCmd c d ∉ l.map Event.promptShown := by
  intro h
  rw [List.mem_map] at h
  obtain ⟨q, _, hq⟩ := h
  cases hq

theorem readF_not_mem_take_prompt_map (l : List String) (n : Nat) (p : String) :
    Event.readF p ∉ (l.map Event.promptShown).take n := by
  intro h
  exact readF_not_mem_prompt_map l p (List.take_subset n _ h)

theorem writeF_not_mem_take_prompt_map (l : List String) (n : Nat) (p c : String) :
    Event.writeF p c ∉ (l.map Event.promptShown).take n := by
  intro h
  exact writeF_not_mem_prompt_map l p c (List.take_subset n _ h)

theorem manifest_io_not_mem_runAfterAnswers_of_cloneFails (env : Env)
    (hc : env.cloneFails = true) (p c : String) :
    Event.readF p ∉ (runAfterAnswers env).1 ∧
    Event.writeF p c ∉ (runAfterAnswers env).1 := by
  have hcl := runClone_eq_cloneFail env hc
  by_cases hd : env.dirExists = true
  · by_cases hov : env.pOverwrite = some true
    · rw [runAfterAnswers_eq_overwrite env hd hov, hcl]
      simp
    · rw [runAfterAnswers_eq_cancel env hd hov]
      simp
  · rw [Bool.not_eq_true] at hd
    rw [runAfterAnswers_eq_fresh env hd, hcl]
    simp

theorem manifest_io_not_mem_run_of_cloneFails (env : Env)
    (hc : env.cloneFails = true) (p c : String) :
    Event.readF p ∉ (run env).1 ∧ Event.writeF p c ∉ (run env).1 := by
  have h2 := manifest_io_not_mem_runAfterAnswers_of_cloneFails env hc p c
  cases hab : env.abortAt with
  | some i =>
      by_cases hi : i < (renderedQuestions env).length
      · rw [run_eq_abort env i hab hi]
        simp [readF_not_mem_prompt_map, writeF_not_mem_prompt_map,
          readF_not_mem_take_prompt_map, writeF_not_mem_take_prompt_map]
      · rw [run_eq_proceed env (Or.inr ⟨i, hab, hi⟩)]
        simp [readF_not_mem_prompt_map, writeF_not_mem_prompt_map, h2.1, h2.2]
  | none =>
      rw [run_eq_proceed env (Or.inl hab)]
      simp [readF_not_mem_prompt_map, writeF_not_mem_prompt_map, h2.1, h2.2]

theorem cloneCmd_mem_runClone (env : Env) :
    Event.execCmd (cloneCmd env) (dir env) ∈ (runClone env).1 := by
  by_cases hc : env.cloneFails = true
  · rw [runClone_eq_cloneFail env hc]
    simp
  · rw [Bool.not_eq_true] at hc
    by_cases hgl : (env.gitDirExists && env.lockfileExists) = true
    · cases hm : env.manifest with
      | none =>
          rw [runClone_eq_noManifest env hc hgl hm]
          simp
      | some m =>
          rw [runClone_eq_patch env m hc hgl hm]
          simp
    · rw [Bool.not_eq_true] at hgl
      rw [runClone_eq_missingPath env hc hgl]
      simp

/-! ## The Manifest Patcher events are gated on the clone -/

theorem self_ne_append (s t : String) (ht : t.data ≠ []) : s ≠ s ++ t := by
  intro he
  have hlen := congrArg String.length he
  rw [String.length_append] at hlen
  have ht2 : 0 < t.length := by
    rcases hd : t.data with _ | ⟨a, l⟩
    · exact absurd hd ht
    · have h2 : t.length = t.data.length := rfl
      rw [h2, hd]
      simp
  omega

theorem gitDirPath_ne_dir (env : Env) : gitDirPath env ≠ dir env :=
  Ne.symm (self_ne_append (dir env) "/.git" (by decide))

theorem lockfilePath_ne_dir (env : Env) : lockfilePath env ≠ dir env :=
  Ne.symm (self_ne_append (dir env) "/package-lock.json" (by decide))

theorem patcher_mem_runAfterAnswers (env : Env) (e : Event)
    (hp : isPatcherEvent env e) (h : e ∈ (runAfterAnswers env).1) :
    env.cloneFails = false ∧
    ∃ pre post,
      (runAfterAnswers env).1 = pre ++ Event.execCmd (cloneCmd env) (dir env) :: post ∧
      e ∈ post := by
  by_cases hc : env.cloneFails = true
  · exfalso
    have hcl := runClone_eq_cloneFail env hc
    by_cases hd : env.dirExists = true
    · by_cases hov : env.pOverwrite = some true
      · rw [runAfterAnswers_eq_overwrite env hd hov, hcl] at h
        rcases hp with hp | hp | hp | ⟨c, hp⟩ <;> subst hp <;>
          simp [gitDirPath_ne_dir env, lockfilePath_ne_dir env] at h
      · rw [runAfterAnswers_eq_cancel env hd hov] at h
        rcases hp with hp | hp | hp | ⟨c, hp⟩ <;> subst hp <;> simp at h
    · rw [Bool.not_eq_true] at hd
      rw [runAfterAnswers_eq_fresh env hd, hcl] at h
      rcases hp with hp | hp | hp | ⟨c, hp⟩ <;> subst hp <;> simp at h
  · rw [Bool.not_eq_true] at hc
    obtain ⟨rest, hre, _⟩ := runClone_shape env hc
    refine ⟨hc, ?_⟩
    by_cases hd : env.dirExists = true
    · by_cases hov : env.pOverwrite = some true
      · rw [runAfterAnswers_eq_overwrite env hd hov, hre] at h ⊢
        refine ⟨[Event.statDir (dir env), Event.promptShown "pOverwrite",
          Event.rmRec (dir env), Event.mkdirRec (dir env)], rest, by simp, ?_⟩
        rcases hp with hp | hp | hp | ⟨c, hp⟩ <;> subst hp <;>
          simp [gitDirPath_ne_dir env, lockfilePath_ne_dir env] at h <;> exact h
      · rw [runAfterAnswers_eq_cancel env hd hov] at h
        exfalso
        rcases hp with hp | hp | hp | ⟨c, hp⟩ <;> subst hp <;> simp at h
    · rw [Bool.not_eq_true] at hd
      rw [runAfterAnswers_eq_fresh env hd, hre] at h ⊢
      refine ⟨[Event.statDir (dir env), Event.mkdirRec (dir env)], rest, by simp, ?_⟩
      rcases hp with hp | hp | hp | ⟨c, hp⟩ <;> subst hp <;>
        simp [gitDirPath_ne_dir env, lockfilePath_ne_dir env] at h <;> exact h

theorem patcher_mem_run (env : Env) (e : Event) (hp : isPatcherEvent env e)
    (h : e ∈ (run env).1) :
    env.cloneFails = false ∧
    ∃ pre post, (run env).1 = pre ++ Event.execCmd (cloneCmd env) (dir env) :: post ∧
      e ∈ post := by
  have hnp : ∀ l : List String, e ∉ l.map Event.promptShown := by
    intro l hm
    rw [List.mem_map] at hm
    obtain ⟨q, _, hq⟩ := hm
    rcases hp with hp | hp | hp | ⟨c, hp⟩ <;> subst hp <;> cases hq
  have hni : e ≠ Event.infoMsg "Operation cancelled" := by
    rcases hp with hp | hp | hp | ⟨c, hp⟩ <;> subst hp <;> intro hq <;> cases hq
  cases hab : env.abortAt with
  | some i =>
      by_cases hi : i < (renderedQuestions env).length
      · rw [run_eq_abort env i hab hi] at h
        rcases List.mem_append.mp h with h2 | h2
        · exact absurd h2 (hnp _)
        · rw [List.mem_singleton] at h2
          exact absurd h2 hni
      · rw [run_eq_proceed env (Or.inr ⟨i, hab, hi⟩)] at h ⊢
        rcases List.mem_append.mp h with h2 | h2
        · exact absurd h2 (hnp _)
        · obtain ⟨h1, pre, post, heq, hmem⟩ := patcher_mem_runAfterAnswers env e hp h2
          exact ⟨h1, (renderedQuestions env).map Event.promptShown ++ pre, post,
            by rw [heq]; simp, hmem⟩
  | none =>
      rw [run_eq_proceed env (Or.inl hab)] at h ⊢
      rcases List.mem_append.mp h with h2 | h2
      · exact absurd h2 (hnp _)
      · obtain ⟨h1, pre, post, heq, hmem⟩ := patcher_mem_runAfterAnswers env e hp h2
        exact ⟨h1, (renderedQuestions env).map Event.promptShown ++ pre, post,
          by rw [heq]; simp, hmem⟩

/-! ## The claims -/

/-- C1: for every template manifest that parses as a structured record,
after a successful run the written-back manifest has `name` equal to the
entered project name, `version` equal to "0.1.0", and no `description`
field, regardless of the original manifest's `name`, `version` or
`description` values. -/
theorem claim1_manifest_fields (env : Env) (tr : List Event)
    (m : List (String × JValue))
    (hrun : run env = (tr, Outcome.completed)) (hm : env.manifest = some m) :
    Event.writeF (manifestPath env)
      (jsonStringify 2 (JValue.obj (patchManifest env.pName m))) ∈ tr ∧
    lookupField (patchManifest env.pName m) "name" = some (JValue.str env.pName) ∧
    lookupField (patchManifest env.pName m) "version" = some (JValue.str "0.1.0") ∧
    lookupField (patchManifest env.pName m) "description" = none := by
  have h2 : (run env).2 = Outcome.completed := by rw [hrun]
  obtain ⟨_, _, m2, hm2, hmem⟩ := run_completed env h2
  rw [hm] at hm2
  injection hm2 with hme
  subst hme
  have h1 : (run env).1 = tr := by rw [hrun]
  rw [h1] at hmem
  exact ⟨hmem, patchManifest_name _ _, patchManifest_version _ _,
    patchManifest_description _ _⟩

/-- C2: the Manifest Patcher modifies only the `name`, `version` and
`description` fields — every other field of the parsed manifest is looked up
unchanged in the written-back manifest — and the output written back is the
serialization with 2-space indentation. -/
theorem claim2_manifest_frame (env : Env) (tr : List Event)
    (m : List (String × JValue))
    (hrun : run env = (tr, Outcome.completed)) (hm : env.manifest = some m) :
    Event.writeF (manifestPath env)
      (jsonStringify 2 (JValue.obj (patchManifest env.pName m))) ∈ tr ∧
    ∀ k, k ≠ "name" → k ≠ "version" → k ≠ "description" →
      lookupField (patchManifest env.pName m) k = lookupField m k := by
  have h2 : (run env).2 = Outcome.completed := by rw [hrun]
  obtain ⟨_, _, m2, hm2, hmem⟩ := run_completed env h2
  rw [hm] at hm2
  injection hm2 with hme
  subst hme
  have h1 : (run env).1 = tr := by rw [hrun]
  rw [h1] at hmem
  exact ⟨hmem, fun k h1 h2 h3 => patchManifest_other _ _ k h1 h2 h3⟩

/-- C3: when the target directory exists and the user gives anything but a
confirmation at the overwrite prompt, the run performs no filesystem
mutation and ends with a cancellation notice and exit status 0. -/
theorem claim3_decline_no_mutation (env : Env) (hab : env.abortAt = none)
    (hd : env.dirExists = true) (hov : ¬ env.pOverwrite = some true) :
    (run env).2 = Outcome.cancelled ∧
    Outcome.exitCode (run env).2 = some 0 ∧
    Event.infoMsg "Operation cancelled" ∈ (run env).1 ∧
    ∀ e ∈ (run env).1, isMutation e = false := by
  rw [run_eq_proceed env (Or.inl hab), runAfterAnswers_eq_cancel env hd hov]
  refine ⟨rfl, rfl, by simp, ?_⟩
  intro e he
  rcases List.mem_append.mp he with h | h
  · exact isMutation_prompt_map _ e h
  · simp only [List.mem_cons, List.not_mem_nil, or_false] at h
    rcases h with h | h | h <;> subst h <;> rfl

/-- C4: when the target directory exists and the user confirms the
overwrite, the old directory is removed recursively before anything mutates
the filesystem, and the directory is recreated after that removal. -/
theorem claim4_overwrite_removes_first (env : Env) (hab : env.abortAt = none)
    (hd : env.dirExists = true) (hov : env.pOverwrite = some true) :
    ∃ pre post, (run env).1 = pre ++ Event.rmRec (dir env) :: post ∧
      (∀ e ∈ pre, isMutation e = false) ∧
      Event.mkdirRec (dir env) ∈ post := by
  rw [run_eq_proceed env (Or.inl hab), runAfterAnswers_eq_overwrite env hd hov]
  refine ⟨(renderedQuestions env).map Event.promptShown
      ++ [Event.statDir (dir env), Event.promptShown "pOverwrite"],
    Event.mkdirRec (dir env) :: (runClone env).1, by simp, ?_, by simp⟩
  intro e he
  rcases List.mem_append.mp he with h | h
  · exact isMutation_prompt_map _ e h
  · simp only [List.mem_cons, List.not_mem_nil, or_false] at h
    rcases h with h | h <;> subst h <;> rfl

/-- C5: for every chosen template, git is invoked as
`git clone --branch <branch> <url> .` with the workspace as working
directory, and a non-zero exit of that invocation makes the whole run fatal
with no retry and no later step. -/
theorem claim5_clone_invocation (env : Env) (hab : env.abortAt = none)
    (hdov : env.dirExists = true → env.pOverwrite = some true) :
    Event.execCmd (cloneCmd env) (dir env) ∈ (run env).1 ∧
    (env.cloneFails = true →
      (run env).2 = Outcome.fatal ∧
      ∃ pre, (run env).1 = pre ++ [Event.execCmd (cloneCmd env) (dir env)] ∧
        Event.execCmd (cloneCmd env) (dir env) ∉ pre) := by
  rw [run_eq_proceed env (Or.inl hab)]
  by_cases hd : env.dirExists = true
  · rw [runAfterAnswers_eq_overwrite env hd (hdov hd)]
    refine ⟨by simp [cloneCmd_mem_runClone env], fun hc => ?_⟩
    rw [runClone_eq_cloneFail env hc]
    refine ⟨rfl, (renderedQuestions env).map Event.promptShown
        ++ [Event.statDir (dir env), Event.promptShown "pOverwrite",
            Event.rmRec (dir env), Event.mkdirRec (dir env)], by simp, ?_⟩
    intro hmem
    rcases List.mem_append.mp hmem with h | h
    · exact execCmd_not_mem_prompt_map _ _ _ h
    · simp at h
  · rw [Bool.not_eq_true] at hd
    rw [runAfterAnswers_eq_fresh env hd]
    refine ⟨by simp [cloneCmd_mem_runClone env], fun hc => ?_⟩
    rw [runClone_eq_cloneFail env hc]
    refine ⟨rfl, (renderedQuestions env).map Event.promptShown
        ++ [Event.statDir (dir env), Event.mkdirRec (dir env)], by simp, ?_⟩
    intro hmem
    rcases List.mem_append.mp hmem with h | h
    · exact execCmd_not_mem_prompt_map _ _ _ h
    · simp at h

/-- C6: the Manifest Patcher — its deletions of `.git` and the lockfile,
the manifest read, and the manifest rewrite — runs only after the Template
Materializer's clone has completed successfully: every patcher event in any
trace sits strictly after the clone invocation and forces the clone to have
succeeded; and if the clone fails, no manifest read or write is ever
attempted and neither deletion occurs. -/
theorem claim6_clone_gates_manifest (env : Env) (tr : List Event) (o : Outcome)
    (hrun : run env = (tr, o)) :
    (env.cloneFails = true →
      (∀ p c, Event.readF p ∉ tr ∧ Event.writeF p c ∉ tr) ∧
      Event.rmRec (gitDirPath env) ∉ tr ∧
      Event.rmRec (lockfilePath env) ∉ tr) ∧
    (∀ e ∈ tr, isPatcherEvent env e →
      env.cloneFails = false ∧
      ∃ pre post, tr = pre ++ Event.execCmd (cloneCmd env) (dir env) :: post ∧
        e ∈ post) := by
  have h1 : tr = (run env).1 := by rw [hrun]
  subst h1
  constructor
  · intro hc
    refine ⟨fun p c => manifest_io_not_mem_run_of_cloneFails env hc p c, ?_, ?_⟩
    · intro h
      exact absurd (patcher_mem_run env _ (Or.inl rfl) h).1 (by simp [hc])
    · intro h
      exact absurd (patcher_mem_run env _ (Or.inr (Or.inl rfl)) h).1 (by simp [hc])
  · intro e he hp
    exact patcher_mem_run env e hp he

/-- C7: when the version-control client was not detected, the git-init
question is never rendered and `git init` is never invoked. -/
theorem claim7_no_git_when_absent (env : Env) (hg : env.gitInstalled = false) :
    Event.promptShown "pGitInit" ∉ (run env).1 ∧
    ∀ d, Event.execCmd "git init" d ∉ (run env).1 := by
  constructor
  · intro h
    rcases promptShown_mem_run env _ h with h | h
    · unfold renderedQuestions at h
      cases hi : env.pInstallDeps <;> simp [hg, hi] at h
    · exact absurd h (by decide)
  · intro d h
    rcases execCmd_mem_run env _ _ h with ⟨h1, _⟩ | ⟨h1, _, _, _⟩ | ⟨_, h1, _⟩
    · exact gitInit_ne_cloneCmd env h1
    · rw [hg] at h1
      cases h1
    · exact installCmd_ne_gitInit env.pInstallDepsManager h1.symm

/-- C8: when the user answered false to the install-dependencies question,
no package-manager install process (no command of the form
`<manager> install`) is ever invoked. -/
theorem claim8_no_install_when_declined (env : Env)
    (hdeps : env.pInstallDeps = false) :
    ∀ m d, Event.execCmd (m ++ " install") d ∉ (run env).1 := by
  intro m d h
  rcases execCmd_mem_run env _ _ h with ⟨h1, _⟩ | ⟨_, _, h1, _⟩ | ⟨h1, _, _⟩
  · exact installCmd_ne_cloneCmd m env h1
  · exact installCmd_ne_gitInit m h1
  · rw [hdeps] at h1
    cases h1

/-- C9: aborting the interactive session at any rendered question ends the
run immediately with a cancellation notice and exit status 0, with no
filesystem mutation having occurred. -/
theorem claim9_abort_no_mutation (env : Env) (i : Nat)
    (hab : env.abortAt = some i)
    (hi : i < (renderedQuestions env).length) :
    (run env).2 = Outcome.cancelled ∧
    Outcome.exitCode (run env).2 = some 0 ∧
    Event.infoMsg "Operation cancelled" ∈ (run env).1 ∧
    ∀ e ∈ (run env).1, isMutation e = false := by
  rw [run_eq_abort env i hab hi]
  refine ⟨rfl, rfl, by simp, ?_⟩
  intro e he
  rcases List.mem_append.mp he with h | h
  · exact isMutation_prompt_map _ e h
  · rw [List.mem_singleton] at h
    subst h
    rfl

/-- C10: the two Manifest Patcher deletions are not forced, so after a
successful clone a missing `.git` directory or a missing
`package-lock.json` makes the deletion step reject: the run aborts fatally
with both deletions attempted and the manifest never read. -/
theorem claim10_missing_deletion_fatal (env : Env) (hab : env.abortAt = none)
    (hdov : env.dirExists = true → env.pOverwrite = some true)
    (hc : env.cloneFails = false)
    (hmiss : env.gitDirExists = false ∨ env.lockfileExists = false) :
    (run env).2 = Outcome.fatal ∧
    Event.rmRec (gitDirPath env) ∈ (run env).1 ∧
    Event.rmRec (lockfilePath env) ∈ (run env).1 ∧
    ∀ p, Event.readF p ∉ (run env).1 := by
  have hgl : (env.gitDirExists && env.lockfileExists) = false := by
    rcases hmiss with h | h <;> simp [h]
  rw [run_eq_proceed env (Or.inl hab)]
  by_cases hd : env.dirExists = true
  · rw [runAfterAnswers_eq_overwrite env hd (hdov hd),
      runClone_eq_missingPath env hc hgl]
    refine ⟨rfl, by simp, by simp, ?_⟩
    intro p h
    rcases List.mem_append.mp h with h | h
    · exact readF_not_mem_prompt_map _ _ h
    · simp at h
  · rw [Bool.not_eq_true] at hd
    rw [runAfterAnswers_eq_fresh env hd, runClone_eq_missingPath env hc hgl]
    refine ⟨rfl, by simp, by simp, ?_⟩
    intro p h
    rcases List.mem_append.mp h with h | h
    · exact readF_not_mem_prompt_map _ _ h
    · simp at h

/-! ## Concrete executions for the witnesses -/

/-- The first catalog entry. -/
def tmplDefault : ProjectTemplate :=
  { name := "default", branch := "main",
    url := "https://github.com/lithiajs/lithia-default-app-template.git",
    description := "Setup a Lithia.js app with no presets" }

/-- A representative cloned manifest: name, version and description to be
overwritten or dropped, plus fields the patch must leave alone. -/
def manifest0 : List (String × JValue) :=
  [("name", JValue.str "lithia-default-app-template"),
   ("version", JValue.str "1.0.0"),
   ("description", JValue.str "A Lithia starter"),
   ("scripts", JValue.obj [("dev", JValue.str "lithia dev")]),
   ("dependencies", JValue.obj [("lithia", JValue.str "latest")])]

/-- A fully successful interactive session on a host with all tools. -/
def envSuccess : Env :=
  { npmInstalled := true, yarnInstalled := true, gitInstalled := true,
    cwd := "/home/user", abortAt := none, pName := "my-app",
    pTemplate := tmplDefault, pInstallDeps := true,
    pInstallDepsManager := "npm", pGitInit := true, dirExists := false,
    pOverwrite := none, cloneFails := false, gitDirExists := true,
    lockfileExists := true, manifest := some manifest0,
    gitInitFails := false, installFails := false }

/-- Same session, but the target directory exists and overwriting is
declined. -/
def envDecline : Env := { envSuccess with dirExists := true, pOverwrite := some false }

/-- Same session, but the target directory exists and overwriting is
confirmed. -/
def envOverwrite : Env := { envSuccess with dirExists := true, pOverwrite := some true }

/-- Same session, but `git clone` exits non-zero. -/
def envCloneFail : Env := { envSuccess with cloneFails := true }

/-- Same session on a host without git. -/
def envNoGit : Env := { envSuccess with gitInstalled := false }

/-- Same session with the install-dependencies confirm answered false. -/
def envNoInstall : Env := { envSuccess with pInstallDeps := false }

/-- Same session aborted at the third question. -/
def envAbort : Env := { envSuccess with abortAt := some 2 }

/-- Same session, but the cloned template ships no `package-lock.json`. -/
def envNoLockfile : Env := { envSuccess with lockfileExists := false }

/-! ## Witnesses -/

theorem claim1_witness :
    Event.writeF (manifestPath envSuccess)
      (jsonStringify 2 (JValue.obj (patchManifest envSuccess.pName manifest0)))
        ∈ (run envSuccess).1 ∧
    lookupField (patchManifest envSuccess.pName manifest0) "name"
      = some (JValue.str envSuccess.pName) ∧
    lookupField (patchManifest envSuccess.pName manifest0) "version"
      = some (JValue.str "0.1.0") ∧
    lookupField (patchManifest envSuccess.pName manifest0) "description" = none := by
  have h2 : (run envSuccess).2 = Outcome.completed := rfl
  exact claim1_manifest_fields envSuccess (run envSuccess).1 manifest0
    (Prod.ext rfl h2) rfl

theorem claim2_witness :
    Event.writeF (manifestPath envSuccess)
      (jsonStringify 2 (JValue.obj (patchManifest envSuccess.pName manifest0)))
        ∈ (run envSuccess).1 ∧
    lookupField (patchManifest envSuccess.pName manifest0) "scripts"
      = lookupField manifest0 "scripts" := by
  have h2 : (run envSuccess).2 = Outcome.completed := rfl
  have h := claim2_manifest_frame envSuccess (run envSuccess).1 manifest0
    (Prod.ext rfl h2) rfl
  exact ⟨h.1, h.2 "scripts" (by decide) (by decide) (by decide)⟩

theorem claim3_witness :
    (run envDecline).2 = Outcome.cancelled ∧
    Outcome.exitCode (run envDecline).2 = some 0 ∧
    isMutation (Event.infoMsg "Operation cancelled") = false := by
  have h := claim3_decline_no_mutation envDecline rfl rfl (by decide)
  exact ⟨h.1, h.2.1, h.2.2.2 _ h.2.2.1⟩

theorem claim4_witness :
    ∃ pre post,
      (run envOverwrite).1 = pre ++ Event.rmRec (dir envOverwrite) :: post ∧
      (∀ e ∈ pre, isMutation e = false) ∧
      Event.mkdirRec (dir envOverwrite) ∈ post :=
  claim4_overwrite_removes_first envOverwrite rfl rfl rfl

theorem claim5_witness :
    Event.execCmd (cloneCmd envCloneFail) (dir envCloneFail) ∈ (run envCloneFail).1 ∧
    (run envCloneFail).2 = Outcome.fatal := by
  have h := claim5_clone_invocation envCloneFail rfl (by decide)
  exact ⟨h.1, (h.2 rfl).1⟩

theorem claim6_witness :
    Event.readF (manifestPath envCloneFail) ∉ (run envCloneFail).1 ∧
    Event.writeF (manifestPath envCloneFail)
      (jsonStringify 2 (JValue.obj (patchManifest envCloneFail.pName manifest0)))
        ∉ (run envCloneFail).1 ∧
    Event.rmRec (gitDirPath envCloneFail) ∉ (run envCloneFail).1 ∧
    Event.rmRec (lockfilePath envCloneFail) ∉ (run envCloneFail).1 := by
  have h := claim6_clone_gates_manifest envCloneFail
    (run envCloneFail).1 (run envCloneFail).2 rfl
  have h2 := h.1 rfl
  have h3 := h2.1 (manifestPath envCloneFail)
    (jsonStringify 2 (JValue.obj (patchManifest envCloneFail.pName manifest0)))
  exact ⟨h3.1, h3.2, h2.2.1, h2.2.2⟩

theorem claim7_witness :
    Event.promptShown "pGitInit" ∉ (run envNoGit).1 ∧
    Event.execCmd "git init" (dir envNoGit) ∉ (run envNoGit).1 := by
  have h := claim7_no_git_when_absent envNoGit rfl
  exact ⟨h.1, h.2 (dir envNoGit)⟩

theorem claim8_witness :
    Event.execCmd ("npm" ++ " install") (dir envNoInstall) ∉ (run envNoInstall).1 :=
  claim8_no_install_when_declined envNoInstall rfl "npm" (dir envNoInstall)

theorem claim9_witness :
    (run envAbort).2 = Outcome.cancelled ∧
    Outcome.exitCode (run envAbort).2 = some 0 ∧
    isMutation (Event.infoMsg "Operation cancelled") = false := by
  have h := claim9_abort_no_mutation envAbort 2 rfl (by decide)
  exact ⟨h.1, h.2.1, h.2.2.2 _ h.2.2.1⟩

theorem claim10_witness :
    (run envNoLockfile).2 = Outcome.fatal ∧
    Event.rmRec (gitDirPath envNoLockfile) ∈ (run envNoLockfile).1 ∧
    Event.rmRec (lockfilePath envNoLockfile) ∈ (run envNoLockfile).1 ∧
    Event.readF (manifestPath envNoLockfile) ∉ (run envNoLockfile).1 := by
  have h := claim10_missing_deletion_fatal envNoLockfile rfl (by decide) rfl (Or.inr rfl)
  exact ⟨h.1, h.2.1, h.2.2.1, h.2.2.2 _⟩
